import Mathlib

/-!
Verification of the piri daemon's window-policy engine against its
natural-language specification.

The Rust sources are shallowly embedded: `u32` values are `Nat` together with
explicit wrap-around (`% 2^32`) where the code can overflow, `i32` values are
`Int` confined to `[-2^31, 2^31)` by an explicit two's-complement wrap, and
stateful plugin handlers become explicit state-passing step functions that are
folded over event traces.  Compiled regexes are modelled by the pattern string
they were compiled from, which is the only observable the claims need.
-/

/-! ## Machine-integer model (u32 / i32, two's-complement semantics) -/

/-- `2^32`, the modulus of `u32` arithmetic. -/
def u32Mod : Nat := 4294967296

/-- `2^31`, the first `u32` value that reinterprets as a negative `i32`. -/
def i32Half : Nat := 2147483648

/-- Wrap an unbounded integer into the `i32` range `[-2^31, 2^31)`
(two's-complement semantics of Rust release-mode arithmetic and `as i32`
casts). -/
def wrapI32 (x : Int) : Int := (x + 2147483648) % 4294967296 - 2147483648

/-- Rust `u32 as i32`: reinterpret a `u32` value (a `Nat` below `2^32`) as a
two's-complement `i32`. -/
def u32ToI32 (n : Nat) : Int := wrapI32 n

/-- Rust `i32 as u32` for the non-negative values produced by `.max(0)`:
reduce into `[0, 2^32)`. -/
def i32ToU32 (x : Int) : Nat := (x % 4294967296).toNat

/-- Rust `u32` subtraction `a - b` (wrapping semantics: `(a - b) mod 2^32`). -/
def u32Sub (a b : Nat) : Nat := (a + u32Mod - b) % u32Mod

/-- Rust `i32` subtraction `a - b` with two's-complement wrap-around. -/
def i32Sub (a b : Int) : Int := wrapI32 (a - b)

/-! ## Scratchpad positioning (src/plugins/window_utils.rs)

`Direction` is the config enum `{FromTop, FromBottom, FromLeft, FromRight}`
used by `calculate_position` / `extract_margin`. -/

inductive Direction where
  | fromTop
  | fromBottom
  | fromLeft
  | fromRight
deriving DecidableEq, Repr

/-- Embedding of `window_utils::calculate_position` (window_utils.rs:298-328):
the visible `(x, y)` position for a scratchpad, computed in `u32` arithmetic
and cast to `i32`. -/
def calculate_position (d : Direction) (output_width output_height window_width window_height margin : Nat) : Int × Int :=
  match d with
  | .fromTop =>
      (u32ToI32 (u32Sub output_width window_width / 2), u32ToI32 margin)
  | .fromBottom =>
      (u32ToI32 (u32Sub output_width window_width / 2),
       u32ToI32 (u32Sub (u32Sub output_height window_height) margin))
  | .fromLeft =>
      (u32ToI32 margin, u32ToI32 (u32Sub output_height window_height / 2))
  | .fromRight =>
      (u32ToI32 (u32Sub (u32Sub output_width window_width) margin),
       u32ToI32 (u32Sub output_height window_height / 2))

/-- Embedding of `window_utils::extract_margin` (window_utils.rs:331-347):
recover the margin from a window position, in `i32` arithmetic, clamped at 0
and cast back to `u32`. -/
def extract_margin (d : Direction) (output_width output_height window_width window_height : Nat) (x y : Int) : Nat :=
  let margin : Int :=
    match d with
    | .fromTop => y
    | .fromBottom => i32Sub (i32Sub (u32ToI32 output_height) (u32ToI32 window_height)) y
    | .fromLeft => x
    | .fromRight => i32Sub (i32Sub (u32ToI32 output_width) (u32ToI32 window_width)) x
  i32ToU32 (max margin 0)

/-- Embedding of `ScratchpadManager::calculate_position`
(scratchpads.rs:438-475): the string-keyed variant; an unknown direction
string falls back to the `fromTop` formula. -/
def scratchpad_calculate_position (direction : String) (output_width output_height window_width window_height margin : Nat) : Int × Int :=
  if direction = "fromTop" then
    (u32ToI32 (u32Sub output_width window_width / 2), u32ToI32 margin)
  else if direction = "fromBottom" then
    (u32ToI32 (u32Sub output_width window_width / 2),
     u32ToI32 (u32Sub (u32Sub output_height window_height) margin))
  else if direction = "fromLeft" then
    (u32ToI32 margin, u32ToI32 (u32Sub output_height window_height / 2))
  else if direction = "fromRight" then
    (u32ToI32 (u32Sub (u32Sub output_width window_width) margin),
     u32ToI32 (u32Sub output_height window_height / 2))
  else
    (u32ToI32 (u32Sub output_width window_width / 2), u32ToI32 margin)

/-! ## Window-order sorter (src/plugins/window_order.rs) -/

/-- A tiled window of the focused workspace as seen by the window-order
sorter (window_order.rs:165-172): window id, weight (`order`, from
`get_window_order`), and current 1-based column index. -/
structure OrderedWindow where
  id : Nat
  weight : Nat
  col : Nat
deriving DecidableEq, Repr

/-- The comparator closure passed to `sort_by` in `reorder_windows`
(window_order.rs:176-185): weight descending (`b.1.cmp(&a.1)`), ties broken
by current column ascending (`a.2.cmp(&b.2)`). -/
def windowOrderCmp (a b : OrderedWindow) : Ordering :=
  match compare b.weight a.weight with
  | .eq => compare a.col b.col
  | o => o

/-- Rust's stable `sort_by` keeps `a` no later than `b` exactly when the
comparator does not answer `Greater`. -/
def windowOrderLe (a b : OrderedWindow) : Bool :=
  windowOrderCmp a b != Ordering.gt

/-- The target permutation computed by `reorder_windows`
(window_order.rs:165-195): a stable sort of the snapshot under the weight/
column comparator.  Rust's `sort_by` (a stable merge sort) is modelled by
Lean's stable `List.mergeSort`.  The 1-based target column of a window is
its position in this list plus one (window_order.rs:188-195). -/
def reorder_target (ws : List OrderedWindow) : List OrderedWindow :=
  ws.mergeSort windowOrderLe

/-! ## Window-order weights (src/config.rs) -/

/-- Rust `str::contains` with a string pattern: substring containment,
modelled as list-infix on the character sequences. -/
def rustContains (haystack needle : String) : Bool :=
  decide (needle.data <:+: haystack.data)

/-- The partial-match test applied to one `window_order` entry in
`Config::get_window_order` (config.rs:710-731): the key is contained in the
app_id or the app_id in the key. -/
def windowOrderKeyMatches (app_id : String) (kv : String × Nat) : Bool :=
  rustContains app_id kv.1 || rustContains kv.1 app_id

/-- Embedding of `Config::get_window_order` (config.rs:701-735).  The
`window_order` HashMap is modelled by its iteration sequence of key/value
pairs (keys distinct); the exact `get` is an association-list lookup and the
partial-match loop is a first-match search in iteration order. -/
def get_window_order (window_order : List (String × Nat)) (default_weight : Nat) (app_id : String) : Nat :=
  match window_order.lookup app_id with
  | some order => order
  | none =>
    match window_order.find? (windowOrderKeyMatches app_id) with
    | some kv => kv.2
    | none => default_weight

/-! ## Empty-workspace trigger (src/plugins/empty.rs) -/

/-- Workspace identifiers as distinguished by the empty plugin
(empty.rs:370-375; the `Id` variant is never produced by
`parse_workspace_identifier` and is omitted). -/
inductive WorkspaceIdent where
  | idx (i : Nat)
  | name (s : String)
deriving DecidableEq, Repr

/-- Rust `str::parse::<u8>()`: optional leading `+`, at least one ASCII
digit, value at most 255. -/
def parseU8 (s : String) : Option Nat :=
  let cs := match s.data with
    | '+' :: rest => rest
    | cs => cs
  if cs ≠ [] ∧ cs.all (fun c => c.isDigit) then
    let n := cs.foldl (fun acc c => acc * 10 + (c.toNat - 48)) 0
    if n ≤ 255 then some n else none
  else none

/-- Embedding of `EmptyPlugin::parse_workspace_identifier` (empty.rs:34-40):
a string that parses as `u8` is an index, anything else a name. -/
def parse_workspace_identifier (workspace : String) : WorkspaceIdent :=
  match parseU8 workspace with
  | some idx => .idx idx
  | none => .name workspace

/-- The name-pass comparison of `try_match_and_execute` (empty.rs:194-208). -/
def emptyNameMatches (current key : WorkspaceIdent) : Bool :=
  match current, key with
  | .name a, .name b => a == b
  | .name n, .idx i => n == toString i
  | .idx i, .name n => n == toString i
  | _, _ => false

/-- The idx-pass comparison of `try_match_and_execute` (empty.rs:227-233). -/
def emptyIdxMatches (current key : WorkspaceIdent) : Bool :=
  match current, key with
  | .idx a, .idx b => a == b
  | _, _ => false

/-- Embedding of `EmptyPlugin::try_match_and_execute` (empty.rs:160-248) on
the `is_empty = true` path: returns the command that gets executed, if any.
The configured workspace map is modelled by its iteration sequence. -/
def try_match_and_execute (workspaces : List (String × String)) (workspace_key : String) : Option String :=
  let current := parse_workspace_identifier workspace_key
  match workspaces.find? (fun kv => emptyNameMatches current (parse_workspace_identifier kv.1)) with
  | some kv => some kv.2
  | none =>
    match workspaces.find? (fun kv => emptyIdxMatches current (parse_workspace_identifier kv.1)) with
    | some kv => some kv.2
    | none => none

/-- Embedding of the command-selection logic of
`EmptyPlugin::handle_event_internal` (empty.rs:92-134) for a focused,
empty workspace with index `ws_idx` and optional name `ws_name`:
`workspace_key` is the idx as string; the config map is consulted by
`workspace_key` first, then by the workspace name, then via
`try_match_and_execute`. -/
def empty_workspace_command (workspaces : List (String × String)) (ws_idx : Nat) (ws_name : Option String) : Option String :=
  let workspace_key := toString ws_idx
  match workspaces.lookup workspace_key with
  | some cmd => some cmd
  | none =>
    match ws_name with
    | some name =>
      match workspaces.lookup name with
      | some cmd => some cmd
      | none => try_match_and_execute workspaces workspace_key
    | none => try_match_and_execute workspaces workspace_key

/-! ## Window-rule focus de-duplication

Modelled from the spec: the `src/` revision of window_rule.rs handles only
`WindowOpenedOrChanged` (lines 210-289) and never consumes
`WindowFocusChanged`, although `focus_command` exists in its config
(config.rs:120).  The guard is modelled from the spec's words (§4.3): "if
the last `(executed_window_id, timestamp)` matches the current id and is
within 200 ms, skip.  Update the guard after execution." -/

/-- A `WindowFocusChanged` event as seen by the de-duplication guard:
the focused window id, the time (ms) at which the handler runs, and whether
the window resolves to a first matching rule carrying a `focus_command`. -/
structure FocusEvent where
  windowId : Nat
  time : Nat
  hasFocusCommand : Bool
deriving DecidableEq, Repr

/-- Modelled from the spec: one `WindowFocusChanged` dispatch.  Returns the
updated `(executed_window_id, timestamp)` guard and whether the
focus_command was executed. -/
def focusGuardStep (guard : Option (Nat × Nat)) (e : FocusEvent) :
    Option (Nat × Nat) × Bool :=
  if e.hasFocusCommand then
    match guard with
    | some (lastId, lastTime) =>
      if lastId = e.windowId ∧ e.time - lastTime < 200 then (guard, false)
      else (some (e.windowId, e.time), true)
    | none => (some (e.windowId, e.time), true)
  else (guard, false)

/-- The `(window id, time)` pairs at which a focus_command is executed when
the guard processes the event trace in order. -/
def focusExecutions (guard : Option (Nat × Nat)) : List FocusEvent → List (Nat × Nat)
  | [] => []
  | e :: rest =>
    match focusGuardStep guard e with
    | (g, true) => (e.windowId, e.time) :: focusExecutions g rest
    | (g, false) => focusExecutions g rest

/-- Modelled from the spec: the executions produced from the initial (empty)
guard. -/
def run_focus_dedup (events : List FocusEvent) : List (Nat × Nat) :=
  focusExecutions none events

/-! ## Swallow focus queue (src/plugins/swallow.rs) -/

/-- The `while self.focused_window_queue.len() > 5 { pop_front(); }` loop
(swallow.rs:608-610 and 747-749). -/
def capQueue : List Nat → List Nat
  | [] => []
  | x :: t => if (x :: t).length > 5 then capQueue t else x :: t

/-- The queue update shared by `handle_window_opened` (swallow.rs:601-616)
and the `WindowFocusTimestampChanged` arm (swallow.rs:740-754): drop any
existing occurrence of the id, push it at the back, cap the length at 5.
The queue is modelled front-first (head = oldest). -/
def pushFocus (queue : List Nat) (id : Nat) : List Nat :=
  capQueue (queue.filter (fun w => w != id) ++ [id])

/-- The queue-relevant effect of each event the swallow plugin consumes.
For `WindowOpenedOrChanged`, `alreadyInPidMap` is the early-skip test of
swallow.rs:571-582 (the id already appears in some vector of the pid map),
in which case the handler returns before touching the queue. -/
inductive SwallowQueueEvent where
  | windowOpened (id : Nat) (alreadyInPidMap : Bool)
  | windowClosed (id : Nat)
  | focusTimestampChanged (id : Nat)
deriving DecidableEq, Repr

/-- The focus-queue transition of `SwallowPlugin::handle_event`
(swallow.rs:721-758). -/
def swallowQueueStep (queue : List Nat) : SwallowQueueEvent → List Nat
  | .windowOpened id seen => if seen then queue else pushFocus queue id
  | .windowClosed id => queue.filter (fun w => w != id)
  | .focusTimestampChanged id => pushFocus queue id

/-- The focus queue after the plugin (starting from the empty queue it is
constructed with, swallow.rs:103) has handled a sequence of events. -/
def runSwallowQueue (events : List SwallowQueueEvent) : List Nat :=
  events.foldl swallowQueueStep []

/-! ## Singleton launch branch

Modelled from the spec: the `src/` revision's `SingletonConfig`
(config.rs:102-108) has no `on_created_command` field and
`SingletonManager::toggle` (singleton.rs:48-121) never runs a post-create
hook; the behaviour is modelled from the spec's words (§4.2): "else launch
the command, wait up to 5 s for the matching window, then run the optional
`on_created_command` via `/bin/sh -c` exactly once.  Focus at the end." -/

/-- Side effects the launch branch can issue. `shellExec` is an invocation
via `/bin/sh -c`. -/
inductive SingletonEffect where
  | spawnCommand (cmd : String)
  | shellExec (cmd : String)
  | focusWindow (id : Nat)
deriving DecidableEq, Repr

/-- The window-appearance wait: attempts `1..=50`, 100 ms apart (5 s total);
`appear k` is the id of a window matching the pattern at attempt `k`, if
any.  Returns the first window found. -/
def singletonWaitResult (appear : Nat → Option Nat) : Option Nat :=
  (List.range' 1 50).findSome? appear

/-- Modelled from the spec: the launch branch of `toggle` with the optional
post-create hook; the effects it issues, in order. -/
def singleton_launch (command : String) (on_created_command : Option String)
    (appear : Nat → Option Nat) : List SingletonEffect :=
  SingletonEffect.spawnCommand command ::
    match singletonWaitResult appear with
    | some windowId =>
        (match on_created_command with
         | some c => [SingletonEffect.shellExec c]
         | none => []) ++ [SingletonEffect.focusWindow windowId]
    | none => []

/-! ## Regex caches under update_config
(src/plugins/window_rule.rs, src/plugins/swallow.rs) -/

/-- A compiled regex, modelled by the pattern it was compiled from — the
only observable the cache claims need. -/
structure CompiledRegex where
  source : String
deriving DecidableEq, Repr

/-- `Regex::new(pattern)` (assumed to succeed; the claims only concern which
pattern a cached regex was compiled from). -/
def compileRegex (pattern : String) : CompiledRegex := ⟨pattern⟩

/-- The shared get-or-compile logic of `WindowRulePlugin::get_regex`
(window_rule.rs:34-47) and `WindowMatcherCache::get_regex`
(window_utils.rs:138-148): look the pattern up in the cache, otherwise
compile and insert it.  The HashMap cache is modelled as an association
list. -/
def getRegexCached (cache : List (String × CompiledRegex)) (pattern : String) :
    List (String × CompiledRegex) × CompiledRegex :=
  match cache.lookup pattern with
  | some regex => (cache, regex)
  | none => ((pattern, compileRegex pattern) :: cache, compileRegex pattern)

/-- A window rule (config.rs:112-121). -/
structure WindowRuleConfig where
  app_id : Option String
  title : Option String
  open_on_workspace : Option String
  focus_command : Option String
deriving DecidableEq, Repr

/-- The state of the window-rule plugin that `update_config` touches:
the rule list and the regex cache (window_rule.rs:13-21). -/
structure WindowRuleState where
  rules : List WindowRuleConfig
  regexCache : List (String × CompiledRegex)
deriving DecidableEq, Repr

/-- Embedding of `WindowRulePlugin::update_config` (window_rule.rs:359-400):
replace the rules and clear the regex cache. -/
def windowRuleUpdateConfig (_s : WindowRuleState) (newRules : List WindowRuleConfig) : WindowRuleState :=
  { rules := newRules, regexCache := [] }

/-- A swallow rule (swallow.rs:24-34). -/
structure SwallowRule where
  parent_app_id : Option (List String)
  parent_title : Option (List String)
  child_app_id : Option (List String)
  child_title : Option (List String)
deriving DecidableEq, Repr

/-- The swallow plugin configuration (swallow.rs:36-43). -/
structure SwallowPluginConfig where
  rules : List SwallowRule
  use_pid_matching : Bool
  exclude_app_id : Option (List String)
  exclude_title : Option (List String)
deriving DecidableEq, Repr

/-- The state of the swallow plugin that `update_config` touches: the config
and the matcher cache (swallow.rs:70-76). -/
structure SwallowState where
  config : SwallowPluginConfig
  matcherCache : List (String × CompiledRegex)
deriving DecidableEq, Repr

/-- Embedding of `SwallowPlugin::update_config` (swallow.rs:703-710):
`self.config = config;` — the matcher cache is left untouched. -/
def swallowUpdateConfig (s : SwallowState) (newConfig : SwallowPluginConfig) : SwallowState :=
  { config := newConfig, matcherCache := s.matcherCache }

/-- Well-formed regex cache: every entry holds the compile of exactly the
pattern it is keyed by. -/
def regexCacheWF (cache : List (String × CompiledRegex)) : Prop :=
  ∀ kv ∈ cache, kv.2 = compileRegex kv.1

/-! ## Swallow pid map (src/plugins/swallow.rs) -/

/-- A window snapshot as the pid map sees it: id and optional process id. -/
structure WinSnap where
  id : Nat
  pid : Option Nat
deriving DecidableEq, Repr

/-- `map.entry(pid).or_insert_with(Vec::new).push(window_id)` on the
`pid → [window_id]` map, modelled as an association list in iteration
order. -/
def pidMapPush (m : List (Nat × List Nat)) (p : Nat) (id : Nat) : List (Nat × List Nat) :=
  match m with
  | [] => [(p, [id])]
  | kv :: rest =>
    if kv.1 = p then (kv.1, kv.2 ++ [id]) :: rest
    else kv :: pidMapPush rest p id

/-- The early-skip test of `handle_window_opened` (swallow.rs:571-582): the
id appears in some vector of the pid map. -/
def idInPidMap (m : List (Nat × List Nat)) (id : Nat) : Bool :=
  m.any (fun e => e.2.contains id)

/-- The parent-search loop of `try_pid_matching` (swallow.rs:326-350): walk
the window list, record every other window's pid → id, and stop at the first
window whose pid is among the child's ancestors. -/
def pidLoop (ancestors : List Nat) (childId : Nat) :
    List WinSnap → List (Nat × List Nat) → List (Nat × List Nat) × Option Nat
  | [], m => (m, none)
  | w :: rest, m =>
    if w.id = childId then pidLoop ancestors childId rest m
    else
      match w.pid with
      | none => pidLoop ancestors childId rest m
      | some wp =>
        if ancestors.contains wp then (pidMapPush m wp w.id, some w.id)
        else pidLoop ancestors childId rest (pidMapPush m wp w.id)

/-- Embedding of the map-relevant behaviour of `try_pid_matching`
(swallow.rs:257-351): a child without a pid returns immediately; otherwise
its id is recorded under its pid and the window list is scanned.  The
`/proc` walk is abstracted by the `ancestors` list. -/
def try_pid_matching_map (child : WinSnap) (windows : List WinSnap)
    (ancestors : List Nat) (m : List (Nat × List Nat)) :
    List (Nat × List Nat) × Option Nat :=
  match child.pid with
  | none => (m, none)
  | some p => pidLoop ancestors child.id windows (pidMapPush m p child.id)

/-- The environment a `WindowOpenedOrChanged` dispatch runs in: the window
snapshot carried by the event, the outcome of the exclude check, the
`get_windows` result consulted by pid matching, and the ancestor pids read
from `/proc`. -/
structure OpenEnv where
  window : WinSnap
  excluded : Bool
  windows : List WinSnap
  ancestors : List Nat
deriving DecidableEq, Repr

/-- Embedding of the pid-map effect and skip decision of
`SwallowPlugin::handle_window_opened` (swallow.rs:568-692).  Returns the
updated map and whether the event was processed (`false` exactly when the
early membership test skipped it as a Changed event).  Rule matching and the
swallow action batch touch no map state. -/
def handle_window_opened_map (use_pid_matching : Bool)
    (m : List (Nat × List Nat)) (env : OpenEnv) :
    List (Nat × List Nat) × Bool :=
  if idInPidMap m env.window.id then (m, false)
  else
    let m1 := match env.window.pid with
      | some p => pidMapPush m p env.window.id
      | none => m
    if env.excluded then (m1, true)
    else if use_pid_matching then
      ((try_pid_matching_map env.window env.windows env.ancestors m1).1, true)
    else (m1, true)

/-- `WindowClosed` on the pid map (swallow.rs:726-739): drop the id from
every vector and drop empty entries. -/
def handle_window_closed_map (m : List (Nat × List Nat)) (id : Nat) : List (Nat × List Nat) :=
  (m.map (fun e => (e.1, e.2.filter (fun w => w != id)))).filter (fun e => !e.2.isEmpty)

/-- The events the swallow plugin consumes, with the environment of each
`WindowOpenedOrChanged` dispatch. -/
inductive SwallowMapEvent where
  | opened (env : OpenEnv)
  | closed (id : Nat)
  | focusTimestampChanged (id : Nat)
deriving DecidableEq, Repr

/-- The pid-map transition of `SwallowPlugin::handle_event`
(swallow.rs:721-758); `WindowFocusTimestampChanged` does not touch the
map. -/
def swallowMapStep (use_pid_matching : Bool) (m : List (Nat × List Nat)) :
    SwallowMapEvent → List (Nat × List Nat)
  | .opened env => (handle_window_opened_map use_pid_matching m env).1
  | .closed id => handle_window_closed_map m id
  | .focusTimestampChanged _ => m

/-- The window `wid` carries no pid anywhere in an event: its own snapshot
has `pid = None`, and so does any snapshot of it in a `get_windows`
result. -/
def pidlessIn (wid : Nat) : SwallowMapEvent → Prop
  | .opened env => (env.window.id = wid → env.window.pid = none) ∧
      (∀ w ∈ env.windows, w.id = wid → w.pid = none)
  | _ => True

/-- A concrete dispatch environment exercising the pid-map model: window 7
carries no pid (also in the `get_windows` snapshot); window 3 has pid 9,
which is among the ancestors. -/
def pidlessEnvExample : OpenEnv :=
  ⟨⟨7, none⟩, false, [⟨7, none⟩, ⟨3, some 9⟩], [9]⟩

/-- A concrete trace: window 7 opens, window 3 closes, window 7 reopens. -/
def pidlessTraceExample : List SwallowMapEvent :=
  [.opened pidlessEnvExample, .closed 3, .opened pidlessEnvExample]

/-! ## Arithmetic lemmas for the machine-integer model -/

theorem wrapI32_dec (x : Int) :
    ∃ q, wrapI32 x = x - 4294967296 * q ∧
      -2147483648 ≤ wrapI32 x ∧ wrapI32 x < 2147483648 := by
  refine ⟨(x + 2147483648) / 4294967296, ?_, ?_, ?_⟩
  · unfold wrapI32
    rw [Int.emod_def]
    ring
  · unfold wrapI32
    have h := Int.emod_nonneg (x + 2147483648) (by norm_num : (4294967296 : Int) ≠ 0)
    omega
  · unfold wrapI32
    have h := Int.emod_lt_of_pos (x + 2147483648) (by norm_num : (0 : Int) < 4294967296)
    omega

theorem wrapI32_chain (a b m : Int) (hm0 : 0 ≤ m) (hm : m < 2147483648) :
    wrapI32 (wrapI32 (wrapI32 a - wrapI32 b) - wrapI32 (a - b - m)) = m := by
  obtain ⟨q1, e1, l1, r1⟩ := wrapI32_dec a
  obtain ⟨q2, e2, l2, r2⟩ := wrapI32_dec b
  obtain ⟨q3, e3, l3, r3⟩ := wrapI32_dec (a - b - m)
  obtain ⟨q4, e4, l4, r4⟩ := wrapI32_dec (wrapI32 a - wrapI32 b)
  obtain ⟨q5, e5, l5, r5⟩ :=
    wrapI32_dec (wrapI32 (wrapI32 a - wrapI32 b) - wrapI32 (a - b - m))
  have hK : wrapI32 (wrapI32 (wrapI32 a - wrapI32 b) - wrapI32 (a - b - m))
      = m - 4294967296 * (q1 - q2 + q4 - q3 + q5) := by
    rw [e5, e4, e1, e2, e3]; ring
  clear e1 e2 e3 e4 e5 l1 r1 l2 r2 l3 r3 l4 r4
  omega

theorem wrapI32_eq_self (x : Int) (h1 : -2147483648 ≤ x) (h2 : x < 2147483648) :
    wrapI32 x = x := by
  unfold wrapI32
  rw [Int.emod_eq_of_lt (by omega) (by omega)]
  omega

theorem u32ToI32_small (n : Nat) (h : n < 2147483648) : u32ToI32 n = n := by
  unfold u32ToI32
  exact wrapI32_eq_self _ (by omega) (by exact_mod_cast h)

theorem i32ToU32_natCast (m : Nat) (h : m < 4294967296) : i32ToU32 m = m := by
  unfold i32ToU32
  rw [Int.emod_eq_of_lt (by positivity) (by exact_mod_cast h)]
  simp

theorem u32Sub_of_le (a b : Nat) (hba : b ≤ a) (ha : a < u32Mod) :
    u32Sub a b = a - b := by
  unfold u32Sub u32Mod
  unfold u32Mod at ha
  omega

theorem u32Sub_self (a : Nat) : u32Sub a a = 0 := by
  unfold u32Sub u32Mod
  omega

/-! ## C1: margin round-trip through calculate_position / extract_margin -/

/-- C1 counterexample: the round-trip claim fails as stated.  With
`output = 4294967295 × 4294967295`, a `0 × 0` window and margin `2^31`
(all of which satisfy "window plus margin fits on the output"), the cast
`margin as i32` in `calculate_position` wraps to `-2^31`, and
`extract_margin` clamps it to `0 ≠ 2^31`. -/
theorem calculate_position_wrap_counterexample :
    (0 + 2147483648 ≤ 4294967295 ∧ 0 + 2147483648 ≤ 4294967295) ∧
    extract_margin .fromTop 4294967295 4294967295 0 0
      (calculate_position .fromTop 4294967295 4294967295 0 0 2147483648).1
      (calculate_position .fromTop 4294967295 4294967295 0 0 2147483648).2
      = 0 := by
  constructor
  · omega
  · decide

/-- C1 (amended): for every direction, output size, window size and margin
such that the window plus margin fits on the output **and the margin is below
`2^31`** (so that no `i32` cast wraps), `extract_margin` applied to the
position returned by `calculate_position` recovers the margin. -/
theorem extract_margin_roundtrip (d : Direction) (ow oh ww wh m : Nat)
    (how : ow < u32Mod) (hoh : oh < u32Mod)
    (hwfit : ww + m ≤ ow) (hhfit : wh + m ≤ oh) (hm : m < i32Half) :
    extract_margin d ow oh ww wh
      (calculate_position d ow oh ww wh m).1
      (calculate_position d ow oh ww wh m).2 = m := by
  unfold u32Mod at how hoh
  unfold i32Half at hm
  cases d with
  | fromTop =>
      simp only [calculate_position, extract_margin]
      rw [u32ToI32_small m hm, max_eq_left (by positivity)]
      exact i32ToU32_natCast m (by omega)
  | fromLeft =>
      simp only [calculate_position, extract_margin]
      rw [u32ToI32_small m hm, max_eq_left (by positivity)]
      exact i32ToU32_natCast m (by omega)
  | fromBottom =>
      simp only [calculate_position, extract_margin]
      rw [u32Sub_of_le oh wh (by omega) (by unfold u32Mod; omega),
          u32Sub_of_le (oh - wh) m (by omega) (by unfold u32Mod; omega)]
      unfold i32Sub u32ToI32
      have hcast : ((oh - wh - m : Nat) : Int) = (oh : Int) - wh - m := by omega
      rw [hcast]
      rw [wrapI32_chain (oh : Int) (wh : Int) m (by positivity) (by exact_mod_cast hm)]
      rw [max_eq_left (by positivity)]
      exact i32ToU32_natCast m (by omega)
  | fromRight =>
      simp only [calculate_position, extract_margin]
      rw [u32Sub_of_le ow ww (by omega) (by unfold u32Mod; omega),
          u32Sub_of_le (ow - ww) m (by omega) (by unfold u32Mod; omega)]
      unfold i32Sub u32ToI32
      have hcast : ((ow - ww - m : Nat) : Int) = (ow : Int) - ww - m := by omega
      rw [hcast]
      rw [wrapI32_chain (ow : Int) (ww : Int) m (by positivity) (by exact_mod_cast hm)]
      rw [max_eq_left (by positivity)]
      exact i32ToU32_natCast m (by omega)

/-- C1 witness: the round-trip theorem at a concrete input
(1920×1080 output, 800×600 window, margin 50, every direction). -/
theorem extract_margin_roundtrip_witness :
    extract_margin .fromRight 1920 1080 800 600
      (calculate_position .fromRight 1920 1080 800 600 50).1
      (calculate_position .fromRight 1920 1080 800 600 50).2 = 50 :=
  extract_margin_roundtrip .fromRight 1920 1080 800 600 50
    (by decide) (by decide) (by decide) (by decide) (by decide)

/-! ## C2: "100% 100%" boundary behaviour -/

/-- C2 counterexample: with size `"100% 100%"` (window = output) but margin
`1`, `calculate_position` yields `(0, 1)`, not `(0, 0)`: the claim does not
hold "for every margin". -/
theorem fullsize_position_margin_counterexample :
    calculate_position .fromTop 1920 1080 1920 1080 1 = (0, 1) ∧
    ((0 : Int), (1 : Int)) ≠ ((0 : Int), (0 : Int)) := by
  constructor
  · decide
  · decide

/-- C2 (amended): for every direction (including every direction string fed
to the scratchpad manager's own copy) and every output size, when the size
string is `"100% 100%"` (window size equals output size) **and the margin is
`0`**, the visible position is `(0, 0)`. -/
theorem fullsize_zero_margin_position (d : Direction) (s : String) (ow oh : Nat) :
    calculate_position d ow oh ow oh 0 = (0, 0) ∧
    scratchpad_calculate_position s ow oh ow oh 0 = (0, 0) := by
  constructor
  · cases d <;> simp only [calculate_position, u32Sub_self] <;> decide
  · unfold scratchpad_calculate_position
    split_ifs <;> simp only [u32Sub_self] <;> decide

/-! ## C3: the window-order target permutation -/

theorem windowOrderLe_iff (a b : OrderedWindow) :
    windowOrderLe a b = true ↔
      b.weight < a.weight ∨ (a.weight = b.weight ∧ a.col ≤ b.col) := by
  unfold windowOrderLe windowOrderCmp
  rcases Nat.lt_trichotomy a.weight b.weight with h | h | h
  · rw [Nat.compare_eq_gt.mpr h,
        show (Ordering.gt != Ordering.gt) = false from rfl]
    simp only [Bool.false_eq_true, false_iff]
    omega
  · rw [Nat.compare_eq_eq.mpr h.symm]
    rcases Nat.lt_trichotomy a.col b.col with hc | hc | hc
    · rw [Nat.compare_eq_lt.mpr hc,
          show (Ordering.lt != Ordering.gt) = true from rfl]
      exact ⟨fun _ => Or.inr ⟨h, Nat.le_of_lt hc⟩, fun _ => rfl⟩
    · rw [Nat.compare_eq_eq.mpr hc,
          show (Ordering.eq != Ordering.gt) = true from rfl]
      exact ⟨fun _ => Or.inr ⟨h, Nat.le_of_eq hc⟩, fun _ => rfl⟩
    · rw [Nat.compare_eq_gt.mpr hc,
          show (Ordering.gt != Ordering.gt) = false from rfl]
      simp only [Bool.false_eq_true, false_iff]
      omega
  · rw [Nat.compare_eq_lt.mpr h,
        show (Ordering.lt != Ordering.gt) = true from rfl]
    exact ⟨fun _ => Or.inl h, fun _ => rfl⟩

/-- C3: the target permutation computed by the window-order sorter is a
permutation of the snapshot ordered by weight descending with current column
ascending as tie-break; in particular two windows with equal weight appear in
current-column order. -/
theorem reorder_target_spec (ws : List OrderedWindow) :
    (reorder_target ws).Perm ws ∧
    (reorder_target ws).Pairwise
      (fun a b => b.weight < a.weight ∨ (a.weight = b.weight ∧ a.col ≤ b.col)) := by
  have htrans : ∀ a b c : OrderedWindow, windowOrderLe a b = true →
      windowOrderLe b c = true → windowOrderLe a c = true := by
    intro a b c hab hbc
    rw [windowOrderLe_iff] at hab hbc ⊢
    omega
  have htotal : ∀ a b : OrderedWindow,
      (windowOrderLe a b || windowOrderLe b a) = true := by
    intro a b
    rw [Bool.or_eq_true, windowOrderLe_iff, windowOrderLe_iff]
    omega
  unfold reorder_target
  refine ⟨List.mergeSort_perm ws _, ?_⟩
  exact (List.sorted_mergeSort htrans htotal ws).imp
    (fun hab => (windowOrderLe_iff _ _).mp hab)

/-! ## C4: weight lookup for a window -/

/-- C4: the weight assigned to an app_id is the exact `window_order` entry
when one exists; otherwise the value of the first map key (in iteration
order) that is contained in the app_id or contains it; otherwise the default
weight. -/
theorem get_window_order_spec (wo : List (String × Nat)) (dflt : Nat) (appId : String) :
    (∀ v, wo.lookup appId = some v → get_window_order wo dflt appId = v) ∧
    (wo.lookup appId = none →
      ∀ l₁ kv l₂, wo = l₁ ++ kv :: l₂ →
        (∀ kv2 ∈ l₁, windowOrderKeyMatches appId kv2 = false) →
        windowOrderKeyMatches appId kv = true →
        get_window_order wo dflt appId = kv.2) ∧
    (wo.lookup appId = none →
      (∀ kv ∈ wo, windowOrderKeyMatches appId kv = false) →
      get_window_order wo dflt appId = dflt) := by
  refine ⟨?_, ?_, ?_⟩
  · intro v h
    unfold get_window_order
    rw [h]
  · intro hnone l₁ kv l₂ heq hl₁ hkv
    unfold get_window_order
    rw [hnone]
    have hfind : wo.find? (windowOrderKeyMatches appId) = some kv := by
      rw [heq, List.find?_append,
          List.find?_eq_none.mpr (fun x hx => by rw [hl₁ x hx]; simp),
          Option.none_or]
      exact List.find?_cons_of_pos _ hkv
    rw [hfind]
  · intro hnone hall
    unfold get_window_order
    rw [hnone, List.find?_eq_none.mpr (fun x hx => by rw [hall x hx]; simp)]

/-- C4 witness: `"ghostty"` is not an exact key for
`"com.mitchellh.ghostty"` but is contained in it, so its weight 7 is
chosen over the default 0. -/
theorem get_window_order_spec_witness :
    get_window_order [("abc", 3), ("ghostty", 7)] 0 "com.mitchellh.ghostty" = 7 :=
  (get_window_order_spec [("abc", 3), ("ghostty", 7)] 0 "com.mitchellh.ghostty").2.1
    (by decide) [("abc", 3)] ("ghostty", 7) [] rfl (by decide) (by decide)

/-! ## C5: empty-workspace command lookup order -/

/-- C5 counterexample: for a focused empty workspace with idx 2 and name
`"foo"`, and a config with both a name-keyed entry (`"foo" → "A"`) and an
idx-keyed entry (`"2" → "B"`), the executed command is the idx-keyed `"B"`,
not the name-keyed `"A"`: the code consults the idx-as-string first
(empty.rs:97-105), contrary to the claimed name-first order. -/
theorem empty_command_counterexample :
    empty_workspace_command [("foo", "A"), ("2", "B")] 2 (some "foo") = some "B" ∧
    some "B" ≠ some "A" := by
  constructor
  · decide
  · decide

/-- C5 (amended): the empty-workspace trigger looks the command up by the
workspace's **idx-as-string first** and only then by its name; when both a
name-keyed and an idx-keyed entry could apply, the idx-keyed entry's command
is the one executed. -/
theorem empty_command_lookup_order (ws : List (String × String)) (idx : Nat) (name : String) :
    (∀ c, ws.lookup (toString idx) = some c →
      empty_workspace_command ws idx (some name) = some c) ∧
    (ws.lookup (toString idx) = none → ∀ c, ws.lookup name = some c →
      empty_workspace_command ws idx (some name) = some c) := by
  constructor
  · intro c h
    simp only [empty_workspace_command]
    rw [h]
  · intro hn c h
    simp only [empty_workspace_command]
    rw [hn, h]

/-- C5 witness: the amended lookup order at the counterexample's input. -/
theorem empty_command_lookup_order_witness :
    empty_workspace_command [("foo", "A"), ("2", "B")] 2 (some "foo") = some "B" :=
  (empty_command_lookup_order [("foo", "A"), ("2", "B")] 2 "foo").1 "B" (by decide)

/-! ## C6: focus_command de-duplication -/

theorem focusExecutions_chain_gap (events : List FocusEvent) :
    ∀ lid lt, List.Chain' (fun a b : Nat × Nat => a.1 = b.1 → a.2 + 200 ≤ b.2)
      ((lid, lt) :: focusExecutions (some (lid, lt)) events) := by
  induction events with
  | nil =>
      intro lid lt
      simp [focusExecutions]
  | cons e rest ih =>
      intro lid lt
      by_cases hc : e.hasFocusCommand = true
      · by_cases hskip : lid = e.windowId ∧ e.time - lt < 200
        · have hstep : focusExecutions (some (lid, lt)) (e :: rest)
              = focusExecutions (some (lid, lt)) rest := by
            simp [focusExecutions, focusGuardStep, hc, hskip]
          rw [hstep]
          exact ih lid lt
        · have hstep : focusExecutions (some (lid, lt)) (e :: rest)
              = (e.windowId, e.time) :: focusExecutions (some (e.windowId, e.time)) rest := by
            simp [focusExecutions, focusGuardStep, hc, hskip]
          rw [hstep]
          refine List.chain'_cons.mpr ⟨?_, ih e.windowId e.time⟩
          intro heq
          by_cases hlt : e.time - lt < 200
          · exact absurd ⟨heq, hlt⟩ hskip
          · omega
      · have hstep : focusExecutions (some (lid, lt)) (e :: rest)
            = focusExecutions (some (lid, lt)) rest := by
          simp [focusExecutions, focusGuardStep, hc]
        rw [hstep]
        exact ih lid lt

/-- C6 (amended): the single-slot `(executed_window_id, timestamp)` guard
guarantees that any two **consecutive** executions of a focus_command for
the same window id (no execution for another window in between) are at
least 200 ms apart; interleaved executions for other windows reset the
guard, so the unqualified claim does not hold (see the counterexample). -/
theorem focus_dedup_consecutive_gap (events : List FocusEvent) :
    List.Chain' (fun a b : Nat × Nat => a.1 = b.1 → a.2 + 200 ≤ b.2)
      (run_focus_dedup events) := by
  unfold run_focus_dedup
  induction events with
  | nil => simp [focusExecutions]
  | cons e rest ih =>
      by_cases hc : e.hasFocusCommand = true
      · have hstep : focusExecutions none (e :: rest)
            = (e.windowId, e.time) :: focusExecutions (some (e.windowId, e.time)) rest := by
          simp [focusExecutions, focusGuardStep, hc]
        rw [hstep]
        exact (List.chain'_cons').mpr
          ⟨fun y hy => ((focusExecutions_chain_gap rest e.windowId e.time).rel_head? hy :
              (e.windowId, e.time).1 = y.1 → (e.windowId, e.time).2 + 200 ≤ y.2),
           (focusExecutions_chain_gap rest e.windowId e.time).tail⟩
      · have hstep : focusExecutions none (e :: rest) = focusExecutions none rest := by
          simp [focusExecutions, focusGuardStep, hc]
        rw [hstep]
        exact ih

/-- C6 counterexample: three focus events — window 1 at t=0, window 2 at
t=50, window 1 again at t=100 — all execute, because the single-slot guard
is overwritten by window 2's execution; window 1's focus_command thus runs
twice within 200 ms, refuting the unqualified claim. -/
theorem focus_dedup_counterexample :
    run_focus_dedup [⟨1, 0, true⟩, ⟨2, 50, true⟩, ⟨1, 100, true⟩]
      = [(1, 0), (2, 50), (1, 100)] ∧
    ¬ (run_focus_dedup [⟨1, 0, true⟩, ⟨2, 50, true⟩, ⟨1, 100, true⟩]).Pairwise
        (fun a b : Nat × Nat => a.1 = b.1 → a.2 + 200 ≤ b.2) := by
  constructor
  · decide
  · decide

/-! ## C7: the focus queue stays short and duplicate-free -/

theorem capQueue_suffix (q : List Nat) : capQueue q <:+ q := by
  induction q with
  | nil => exact List.suffix_rfl
  | cons x t ih =>
      unfold capQueue
      split
      · exact ih.trans (List.suffix_cons x t)
      · exact List.suffix_rfl

theorem capQueue_length (q : List Nat) : (capQueue q).length ≤ 5 := by
  induction q with
  | nil => simp [capQueue]
  | cons x t ih =>
      unfold capQueue
      split
      · exact ih
      · omega

theorem pushFocus_length (q : List Nat) (id : Nat) :
    (pushFocus q id).length ≤ 5 :=
  capQueue_length _

theorem pushFocus_nodup (q : List Nat) (id : Nat) (h : q.Nodup) :
    (pushFocus q id).Nodup := by
  have h2 : (q.filter (fun w => w != id) ++ [id]).Nodup := by
    rw [List.nodup_append]
    refine ⟨h.filter _, List.nodup_singleton id, ?_⟩
    intro a ha hid
    rw [List.mem_singleton] at hid
    have := List.of_mem_filter ha
    simp [hid] at this
  exact List.Nodup.sublist (capQueue_suffix _).sublist h2

theorem swallowQueueStep_preserves (q : List Nat) (e : SwallowQueueEvent)
    (hlen : q.length ≤ 5) (hnd : q.Nodup) :
    (swallowQueueStep q e).length ≤ 5 ∧ (swallowQueueStep q e).Nodup := by
  cases e with
  | windowOpened id seen =>
      cases seen with
      | true => exact ⟨hlen, hnd⟩
      | false => exact ⟨pushFocus_length q id, pushFocus_nodup q id hnd⟩
  | windowClosed id =>
      refine ⟨le_trans ?_ hlen, hnd.filter _⟩
      exact List.length_filter_le _ q
  | focusTimestampChanged id =>
      exact ⟨pushFocus_length q id, pushFocus_nodup q id hnd⟩

/-- C7: for every sequence of events the swallow plugin handles, the
focused_window_queue never exceeds length 5 and never contains the same
window id twice. -/
theorem focused_window_queue_invariant (events : List SwallowQueueEvent) :
    (runSwallowQueue events).length ≤ 5 ∧ (runSwallowQueue events).Nodup := by
  unfold runSwallowQueue
  suffices h : ∀ q : List Nat, q.length ≤ 5 → q.Nodup →
      (events.foldl swallowQueueStep q).length ≤ 5 ∧
      (events.foldl swallowQueueStep q).Nodup by
    exact h [] (by simp) List.nodup_nil
  induction events with
  | nil => intro q h1 h2; exact ⟨h1, h2⟩
  | cons e rest ih =>
      intro q h1 h2
      rw [List.foldl_cons]
      obtain ⟨h1s, h2s⟩ := swallowQueueStep_preserves q e h1 h2
      exact ih _ h1s h2s

/-! ## C8: the on_created_command runs exactly once, then the window is
focused -/

/-- C8: whenever the launch branch's 5-second wait finds the matching
window, a configured `on_created_command` is executed via `/bin/sh -c`
exactly once, and the final effect is focusing that window. -/
theorem singleton_launch_on_created_once (command c : String)
    (appear : Nat → Option Nat) (windowId : Nat)
    (happear : singletonWaitResult appear = some windowId) :
    (singleton_launch command (some c) appear).count (SingletonEffect.shellExec c) = 1 ∧
    (singleton_launch command (some c) appear).getLast?
      = some (SingletonEffect.focusWindow windowId) := by
  unfold singleton_launch
  rw [happear]
  constructor
  · simp [List.count_cons]
  · rfl

/-- C8 witness: a window (id 42) appearing at poll attempt 3. -/
theorem singleton_launch_on_created_once_witness :
    (singleton_launch "foot" (some "notify-send ready")
        (fun k => if k = 3 then some 42 else none)).count
      (SingletonEffect.shellExec "notify-send ready") = 1 ∧
    (singleton_launch "foot" (some "notify-send ready")
        (fun k => if k = 3 then some 42 else none)).getLast?
      = some (SingletonEffect.focusWindow 42) :=
  singleton_launch_on_created_once "foot" "notify-send ready"
    (fun k => if k = 3 then some 42 else none) 42 (by decide)

/-! ## C9: regex caches across configuration reloads -/

/-- C9 counterexample: the swallow plugin's `update_config`
(swallow.rs:703-710) replaces the config but does **not** clear its matcher
cache — after a reload the old entry is still present, refuting "every
update_config call clears that cache". -/
theorem swallow_update_config_counterexample :
    (swallowUpdateConfig
        ⟨⟨[], true, none, none⟩, [("oldpat", compileRegex "oldpat")]⟩
        ⟨[], false, none, none⟩).matcherCache
      = [("oldpat", compileRegex "oldpat")] ∧
    [("oldpat", compileRegex "oldpat")] ≠ ([] : List (String × CompiledRegex)) := by
  constructor
  · rfl
  · decide

theorem lookup_mem_of_eq_some {β : Type} (l : List (String × β)) (a : String) (b : β)
    (h : l.lookup a = some b) : (a, b) ∈ l := by
  induction l with
  | nil => simp [List.lookup] at h
  | cons kv t ih =>
      rw [List.lookup] at h
      by_cases hk : (a == kv.1) = true
      · simp only [hk] at h
        have ha : a = kv.1 := eq_of_beq hk
        have hb : kv.2 = b := by simpa using h
        exact List.mem_cons.mpr (Or.inl (Prod.ext_iff.mpr ⟨ha, hb.symm⟩))
      · have hk2 : (a == kv.1) = false := by simpa using hk
        simp only [hk2] at h
        exact List.mem_cons_of_mem _ (ih h)

/-- C9 (amended): the window-rule plugin's `update_config` clears its regex
cache; the swallow plugin's `update_config` leaves its matcher cache
untouched.  The cache is keyed by the exact pattern text, so a lookup always
yields the regex compiled from precisely the pattern being queried — a
stale entry can never answer for a different pattern. -/
theorem update_config_cache_spec :
    (∀ (s : WindowRuleState) (r : List WindowRuleConfig),
        (windowRuleUpdateConfig s r).regexCache = []) ∧
    (∀ (s : SwallowState) (c : SwallowPluginConfig),
        (swallowUpdateConfig s c).matcherCache = s.matcherCache) ∧
    (∀ (cache : List (String × CompiledRegex)) (p : String),
        regexCacheWF cache →
        (getRegexCached cache p).2 = compileRegex p ∧
        regexCacheWF (getRegexCached cache p).1) := by
  refine ⟨fun s r => rfl, fun s c => rfl, ?_⟩
  intro cache p hwf
  unfold getRegexCached
  cases hlk : cache.lookup p with
  | some regex =>
      have hmem := lookup_mem_of_eq_some cache p regex hlk
      exact ⟨hwf _ hmem, hwf⟩
  | none =>
      refine ⟨rfl, ?_⟩
      intro kv hkv
      rcases List.mem_cons.mp hkv with h | h
      · rw [h]
      · exact hwf _ h

/-- C9 witness: a lookup for a pattern absent from a concrete well-formed
cache compiles exactly that pattern and keeps the cache well-formed. -/
theorem update_config_cache_spec_witness :
    (getRegexCached [("x", compileRegex "x")] "y").2 = compileRegex "y" ∧
    regexCacheWF (getRegexCached [("x", compileRegex "x")] "y").1 :=
  update_config_cache_spec.2.2 [("x", compileRegex "x")] "y"
    (by unfold regexCacheWF; decide)

/-! ## C10: windows without a pid are never recorded and are re-processed -/

theorem idInPidMap_eq_false_iff (m : List (Nat × List Nat)) (j : Nat) :
    idInPidMap m j = false ↔ ∀ e ∈ m, j ∉ e.2 := by
  simp [idInPidMap]

theorem pidMapPush_notIn (m : List (Nat × List Nat)) (p i j : Nat)
    (hm : ∀ e ∈ m, j ∉ e.2) (hij : j ≠ i) :
    ∀ e ∈ pidMapPush m p i, j ∉ e.2 := by
  induction m with
  | nil =>
      intro e he
      simp [pidMapPush] at he
      rw [he]
      simpa using hij
  | cons kv t ih =>
      intro e he
      unfold pidMapPush at he
      by_cases hq : kv.1 = p
      · rw [if_pos hq] at he
        rcases List.mem_cons.mp he with h | h
        · rw [h]
          intro hmem
          rcases List.mem_append.mp hmem with h2 | h2
          · exact hm kv (List.mem_cons_self kv t) h2
          · exact hij (List.mem_singleton.mp h2)
        · exact hm e (List.mem_cons_of_mem kv h)
      · rw [if_neg hq] at he
        rcases List.mem_cons.mp he with h | h
        · rw [h]
          exact hm kv (List.mem_cons_self kv t)
        · exact ih (fun e2 he2 => hm e2 (List.mem_cons_of_mem kv he2)) e h

theorem pidLoop_notIn (anc : List Nat) (cid : Nat) (ws : List WinSnap) (j : Nat) :
    ∀ m : List (Nat × List Nat), (∀ e ∈ m, j ∉ e.2) →
    (∀ w ∈ ws, w.id = j → w.pid = none) →
    ∀ e ∈ (pidLoop anc cid ws m).1, j ∉ e.2 := by
  induction ws with
  | nil =>
      intro m hm _
      simpa [pidLoop] using hm
  | cons w rest ih =>
      intro m hm hws
      have hrest : ∀ w2 ∈ rest, w2.id = j → w2.pid = none :=
        fun w2 h2 => hws w2 (List.mem_cons_of_mem w h2)
      by_cases hw : w.id = cid
      · simp only [pidLoop, if_pos hw]
        exact ih m hm hrest
      · cases hp : w.pid with
        | none =>
            simp only [pidLoop, if_neg hw, hp]
            exact ih m hm hrest
        | some wp =>
            have hwj : j ≠ w.id := by
              intro hj
              have := hws w (List.mem_cons_self w rest) hj.symm
              rw [hp] at this
              cases this
            by_cases ha : anc.contains wp = true
            · simp only [pidLoop, if_neg hw, hp, if_pos ha]
              exact pidMapPush_notIn m wp w.id j hm hwj
            · simp only [pidLoop, if_neg hw, hp, if_neg ha]
              exact ih (pidMapPush m wp w.id)
                (pidMapPush_notIn m wp w.id j hm hwj) hrest

theorem opened_notIn (usePid : Bool) (m : List (Nat × List Nat)) (env : OpenEnv) (j : Nat)
    (hm : ∀ e ∈ m, j ∉ e.2)
    (hwin : env.window.id = j → env.window.pid = none)
    (hws : ∀ w ∈ env.windows, w.id = j → w.pid = none) :
    ∀ e ∈ (handle_window_opened_map usePid m env).1, j ∉ e.2 := by
  unfold handle_window_opened_map
  by_cases hskip : idInPidMap m env.window.id = true
  · rw [if_pos hskip]
    exact hm
  · rw [if_neg hskip]
    have hm1 : ∀ e ∈ (match env.window.pid with
        | some p => pidMapPush m p env.window.id
        | none => m), j ∉ e.2 := by
      cases hp : env.window.pid with
      | none => exact hm
      | some p =>
          have hj : j ≠ env.window.id := by
            intro hj
            rw [hwin hj.symm] at hp
            cases hp
          exact pidMapPush_notIn m p env.window.id j hm hj
    by_cases hex : env.excluded = true
    · rw [if_pos hex]
      exact hm1
    · rw [if_neg hex]
      by_cases hup : usePid = true
      · rw [if_pos hup]
        unfold try_pid_matching_map
        cases hp : env.window.pid with
        | none =>
            simp only [hp] at hm1 ⊢
            exact hm1
        | some p =>
            simp only [hp] at hm1 ⊢
            have hj : j ≠ env.window.id := by
              intro hj
              rw [hwin hj.symm] at hp
              cases hp
            exact pidLoop_notIn env.ancestors env.window.id env.windows j
              (pidMapPush (pidMapPush m p env.window.id) p env.window.id)
              (pidMapPush_notIn (pidMapPush m p env.window.id) p env.window.id j hm1 hj)
              hws
      · rw [if_neg hup]
        exact hm1

theorem closed_notIn (m : List (Nat × List Nat)) (cid j : Nat)
    (hm : ∀ e ∈ m, j ∉ e.2) :
    ∀ e ∈ handle_window_closed_map m cid, j ∉ e.2 := by
  intro e he
  unfold handle_window_closed_map at he
  have he2 := List.mem_of_mem_filter he
  rcases List.mem_map.mp he2 with ⟨e0, he0, heq⟩
  rw [← heq]
  intro hmem
  exact hm e0 he0 (List.mem_of_mem_filter hmem)

theorem swallowMapStep_notIn (usePid : Bool) (m : List (Nat × List Nat))
    (ev : SwallowMapEvent) (j : Nat)
    (hm : ∀ e ∈ m, j ∉ e.2) (hok : pidlessIn j ev) :
    ∀ e ∈ swallowMapStep usePid m ev, j ∉ e.2 := by
  cases ev with
  | opened env => exact opened_notIn usePid m env j hm hok.1 hok.2
  | closed cid => exact closed_notIn m cid j hm
  | focusTimestampChanged _ => exact hm

theorem swallowMapFold_notIn (usePid : Bool) (j : Nat) (trace : List SwallowMapEvent) :
    ∀ m : List (Nat × List Nat), (∀ e ∈ m, j ∉ e.2) →
    (∀ ev ∈ trace, pidlessIn j ev) →
    ∀ e ∈ trace.foldl (swallowMapStep usePid) m, j ∉ e.2 := by
  induction trace with
  | nil => intro m hm _; exact hm
  | cons ev rest ih =>
      intro m hm hok
      rw [List.foldl_cons]
      exact ih _ (swallowMapStep_notIn usePid m ev j hm (hok ev (List.mem_cons_self ev rest)))
        (fun ev2 h2 => hok ev2 (List.mem_cons_of_mem ev h2))

theorem opened_processed (usePid : Bool) (m : List (Nat × List Nat)) (env : OpenEnv)
    (h : idInPidMap m env.window.id = false) :
    (handle_window_opened_map usePid m env).2 = true := by
  unfold handle_window_opened_map
  rw [h]
  cases hp : env.window.pid <;>
    simp only [hp, Bool.false_eq_true, if_false] <;>
    split_ifs <;> rfl

/-- C10: the swallow plugin decides "previously seen" solely by membership
of the window id in some vector of the pid map; a window whose snapshots
never carry a pid is therefore never recorded, and every
`WindowOpenedOrChanged` dispatch for it runs the full exclude/PID/rule
pipeline again (the handler never takes the early-skip branch). -/
theorem pidless_window_always_reprocessed (use_pid : Bool) (wid : Nat)
    (trace : List SwallowMapEvent)
    (hok : ∀ ev ∈ trace, pidlessIn wid ev) :
    idInPidMap (trace.foldl (swallowMapStep use_pid) []) wid = false ∧
    ∀ pre env post, trace = pre ++ SwallowMapEvent.opened env :: post →
      env.window.id = wid →
      (handle_window_opened_map use_pid
        (pre.foldl (swallowMapStep use_pid) []) env).2 = true := by
  constructor
  · exact (idInPidMap_eq_false_iff _ wid).mpr
      (swallowMapFold_notIn use_pid wid trace [] (by simp) hok)
  · intro pre env post heq hid
    have hpre : ∀ ev ∈ pre, pidlessIn wid ev := by
      intro ev hev
      exact hok ev (heq ▸ List.mem_append_left _ hev)
    have hstate : idInPidMap (pre.foldl (swallowMapStep use_pid) []) env.window.id = false := by
      rw [hid]
      exact (idInPidMap_eq_false_iff _ wid).mpr
        (swallowMapFold_notIn use_pid wid pre [] (by simp) hpre)
    exact opened_processed use_pid _ env hstate

/-- C10 witness: window 7 never carries a pid, so its second
`WindowOpenedOrChanged` dispatch is processed in full again. -/
theorem pidless_window_always_reprocessed_witness :
    idInPidMap (pidlessTraceExample.foldl (swallowMapStep true) []) 7 = false ∧
    (handle_window_opened_map true
      ([SwallowMapEvent.opened pidlessEnvExample, SwallowMapEvent.closed 3].foldl
        (swallowMapStep true) []) pidlessEnvExample).2 = true := by
  have hok : ∀ ev ∈ pidlessTraceExample, pidlessIn 7 ev := by
    intro ev hev
    have hcases : ev = .opened pidlessEnvExample ∨ ev = .closed 3 ∨
        ev = .opened pidlessEnvExample := by
      simpa [pidlessTraceExample] using hev
    rcases hcases with rfl | rfl | rfl
    · exact ⟨fun _ => rfl, by decide⟩
    · exact trivial
    · exact ⟨fun _ => rfl, by decide⟩
  have h := pidless_window_always_reprocessed true 7 pidlessTraceExample hok
  exact ⟨h.1, h.2 [.opened pidlessEnvExample, .closed 3] pidlessEnvExample [] rfl rfl⟩
